import Mathlib

/-!
Verification of the clinical-data aggregation core of a cancer-genomics
dashboard.  The TypeScript source is shallowly embedded: JS numbers are
modelled as `ℚ`, JS strings as `String`, dynamically keyed records
(`Patient`, the JS `Map`s) as insertion-ordered association lists, and the
stable `Array.prototype.sort` as Mathlib's stable `List.insertionSort`.
Fallible fetches are modelled as `Except` values.
-/

namespace CBio

open List

/-- Per-patient survival tuple, from the `SurvivalData` interface. -/
structure SurvivalData where
  patientId : String
  months : ℚ
  status : String
deriving DecidableEq, Repr

/-- One point of the Kaplan-Meier step curve (the `{month, survival}`
object literal in `calculateKaplanMeier`). -/
structure KMPoint where
  month : ℚ
  survival : ℚ
deriving DecidableEq, Repr

/-- Parallel label/value sequences (the `ChartData` interface); the value
type is `ℕ` for the counting charts and `ℚ` for the survival curve, both
specializing the JS `number[]`. -/
structure ChartData (α : Type) where
  labels : List String
  values : List α
deriving DecidableEq, Repr

/-- JS `String.prototype.includes`, on character lists: `needle` occurs
contiguously inside the haystack. -/
def containsSub (needle : List Char) : List Char → Bool
  | [] => needle.isEmpty
  | h :: t => needle.isPrefixOf (h :: t) || containsSub needle t

/-- Deceased-status test from `calculateKaplanMeier`: substring check for
`DECEASED` plus two exact comparisons, exactly as in the source. -/
def isDeceased (st : String) : Bool :=
  containsSub ("DECEASED").toList st.toList || st == "1:DECEASED" || st == "DEAD"

/-- JS `Number.prototype.toFixed(0)`: round half away from zero and print
the integer. -/
def jsToFixed0 (q : ℚ) : String :=
  if 0 ≤ q then toString (q + 1/2).floor else ("-") ++ toString (-q + 1/2).floor

/-- The event loop of `calculateKaplanMeier`: for each sorted event, a
deceased event rescales survival by `(atRisk - 1) / atRisk` and appends a
point; every event decrements `atRisk`. -/
def kmLoop : List SurvivalData → ℚ → ℚ → List KMPoint → List KMPoint
  | [], _, _, points => points
  | item :: rest, atRisk, survival, points =>
    if isDeceased item.status then
      let survival' := survival * ((atRisk - 1) / atRisk)
      kmLoop rest (atRisk - 1) survival' (points ++ [⟨item.months, survival'⟩])
    else
      kmLoop rest (atRisk - 1) survival points

/-- Comparator of the pre-sort in `calculateKaplanMeier`
(`(a, b) => a.months - b.months`, ascending and stable). -/
def monthsLe (a b : SurvivalData) : Prop := a.months ≤ b.months

instance : DecidableRel monthsLe :=
  fun a b => inferInstanceAs (Decidable (a.months ≤ b.months))

/-- `calculateKaplanMeier` from the survival-chart component: empty input
short-circuits to empty labels/values; otherwise the input is sorted
ascending by months, the point list is seeded with `(0, 100)`, and the
event loop runs with `atRisk` initialized to the input length. -/
def calculateKaplanMeier (data : List SurvivalData) : ChartData ℚ :=
  if data.length = 0 then ⟨[], []⟩
  else
    let sorted := List.insertionSort monthsLe data
    let points := kmLoop sorted (sorted.length : ℚ) 100 [⟨0, 100⟩]
    ⟨points.map (fun p => jsToFixed0 p.month), points.map (fun p => p.survival)⟩

/-- `medianSurvival` from the survival-chart component: the label of the
first curve value that is `≤ 50`, else the `Not reached` sentinel.  The
source loop reads `curve.labels[i]`, which is JS `undefined` if `labels`
were shorter than `values`; the curves it receives always have equal
lengths, and the `getD` default models that out-of-range access. -/
def medianSurvival (curve : ChartData ℚ) : String :=
  match curve.values.findIdx? (fun v => decide (v ≤ 50)) with
  | some i => curve.labels.getD i ("undefined")
  | none => "Not reached"

/-- A `Patient` record: a JS object's string-keyed own fields in insertion
order, with unique keys.  `transformToPatients` seeds it with `patientId`
and `studyId` and then assigns arbitrary attribute-named fields. -/
abbrev Patient := List (String × String)

/-- JS property assignment `record[k] = v`: overwrite in place when the key
already exists (keeping its position), else append the new field. -/
def setField (p : Patient) (k v : String) : Patient :=
  if p.any (fun f => f.1 == k) then
    p.map (fun f => if f.1 == k then (k, v) else f)
  else p ++ [(k, v)]

/-- JS property read `record[k]`; `none` models `undefined`. -/
def getField (p : Patient) (k : String) : Option String :=
  (p.find? (fun f => f.1 == k)).map (fun f => f.2)

/-- A clinical-data triple as returned by the remote service (the
`ClinicalDataItem` interface). -/
structure ClinicalDataItem where
  uniquePatientKey : String
  uniqueSampleKey : Option String
  patientId : String
  sampleId : Option String
  studyId : String
  clinicalAttributeId : String
  value : String
deriving DecidableEq, Repr

/-- Shorthand for items in concrete examples (the fields the transform
does not read are filled with defaults). -/
def mkItem (pid sid attr v : String) : ClinicalDataItem :=
  ⟨pid, none, pid, none, sid, attr, v⟩

/-- One iteration of `transformToPatients`' loop: on first sighting of a
patient id, append a record seeded with `patientId` and `studyId` to the
insertion-ordered patient map; then run
`patient[item.clinicalAttributeId] = item.value` on that patient's
record. -/
def transformStep (m : List (String × Patient)) (item : ClinicalDataItem) :
    List (String × Patient) :=
  (if m.any (fun e => e.1 == item.patientId) then m
    else m ++ [(item.patientId,
      [("patientId", item.patientId), ("studyId", item.studyId)])]).map
    (fun e => if e.1 == item.patientId then
      (e.1, setField e.2 item.clinicalAttributeId item.value) else e)

/-- `transformToPatients` from the composable: fold the items through the
JS `Map` and return its values in insertion order
(`Array.from(patientMap.values())`). -/
def transformToPatients (clinicalData : List ClinicalDataItem) : List Patient :=
  (clinicalData.foldl transformStep []).map (fun e => e.2)

/-- Spec side: the distinct patient identifiers of the input in
first-sighting order. -/
def firstSightings (items : List ClinicalDataItem) : List String :=
  items.foldl (fun acc it =>
    if acc.any (fun s => s == it.patientId) then acc
    else acc ++ [it.patientId]) []

/-- Spec side: the value carried by the last input item for a given
(patient, attribute) pair, if any. -/
def lastValue (items : List ClinicalDataItem) (pid attr : String) :
    Option String :=
  ((items.filter (fun it =>
      it.patientId == pid && it.clinicalAttributeId == attr)).getLast?).map
    (fun it => it.value)

/-- Apply, in input order, every assignment belonging to one patient. -/
def applyItems (items : List ClinicalDataItem) (pid : String)
    (acc : Patient) : Patient :=
  items.foldl (fun a it =>
    if it.patientId == pid then setField a it.clinicalAttributeId it.value
    else a) acc

/-- Reference record for one patient: the seed taken from the first item
mentioning the patient, with all of that patient's assignments applied in
order. -/
def buildRecord (items : List ClinicalDataItem) (pid : String) : Patient :=
  applyItems items pid
    (match items.find? (fun it => it.patientId == pid) with
     | some it => [("patientId", pid), ("studyId", it.studyId)]
     | none => [])

/-- The JS `counts.set(key, (counts.get(key) || 0) + 1)` on an insertion
ordered map: increment in place, or append the key with count `1`. -/
def bumpCount (counts : List (String × ℕ)) (key : String) :
    List (String × ℕ) :=
  if counts.any (fun e => e.1 == key) then
    counts.map (fun e => if e.1 == key then (e.1, e.2 + 1) else e)
  else counts ++ [(key, 1)]

/-- The counting loop of `calculateDistribution`: skip records whose value
for the attribute is absent or the empty string, count the rest per
distinct value, keys in first-encounter order. -/
def distributionCounts (patients : List Patient) (attributeId : String) :
    List (String × ℕ) :=
  patients.foldl (fun counts p =>
    match getField p attributeId with
    | some v => if v ≠ "" then bumpCount counts v else counts
    | none => counts) []

/-- Comparator `(a, b) => b[1] - a[1]` of `calculateDistribution`'s sort:
count descending (the stable JS sort is modelled by Mathlib's stable
`insertionSort`). -/
def countGe (a b : String × ℕ) : Prop := b.2 ≤ a.2

instance : DecidableRel countGe :=
  fun a b => inferInstanceAs (Decidable (b.2 ≤ a.2))

instance : IsTotal (String × ℕ) countGe := ⟨fun a b => le_total b.2 a.2⟩

instance : IsTrans (String × ℕ) countGe :=
  ⟨fun _ _ _ h1 h2 => le_trans h2 h1⟩

/-- `calculateDistribution` from the composable. -/
def calculateDistribution (patients : List Patient) (attributeId : String) :
    ChartData ℕ :=
  ⟨(List.insertionSort countGe (distributionCounts patients attributeId)).map
      (fun e => e.1),
   (List.insertionSort countGe (distributionCounts patients attributeId)).map
      (fun e => e.2)⟩

/-- Accumulate a decimal digit list into a natural number. -/
def natFromDigits (cs : List Char) : ℕ :=
  cs.foldl (fun a c => 10 * a + (c.toNat - 48)) 0

/-- Decimal-numeral part of `jsNumber`: an integer part, optionally
followed by `.` and a fractional part; at least one digit overall. -/
def jsNumberDigits (cs : List Char) : Option ℚ :=
  match cs.dropWhile (fun c => c.isDigit) with
  | [] =>
    if (cs.takeWhile (fun c => c.isDigit)).isEmpty then none
    else some ((natFromDigits (cs.takeWhile (fun c => c.isDigit)) : ℕ) : ℚ)
  | '.' :: frac =>
    if frac.all (fun c => c.isDigit) &&
        !((cs.takeWhile (fun c => c.isDigit)).isEmpty && frac.isEmpty) then
      some (((natFromDigits (cs.takeWhile (fun c => c.isDigit)) : ℕ) : ℚ) +
        ((natFromDigits frac : ℕ) : ℚ) / ((10 : ℚ) ^ frac.length))
    else none
  | _ => none

/-- Strip leading and trailing whitespace from a character list. -/
def trimChars (cs : List Char) : List Char :=
  ((cs.dropWhile (fun c => c.isWhitespace)).reverse.dropWhile
    (fun c => c.isWhitespace)).reverse

/-- JS `Number(string)` coercion, `none` modelling `NaN`: trims
whitespace, maps the empty string to `0`, and parses optionally signed
decimal numerals.  (Hexadecimal, binary and exponent forms accepted by JS
are not modelled; no claim exercises them.) -/
def jsNumber (s : String) : Option ℚ :=
  if trimChars s.toList = [] then some 0
  else
    match trimChars s.toList with
    | '-' :: cs => (jsNumberDigits cs).map (fun q => -q)
    | '+' :: cs => jsNumberDigits cs
    | cs => jsNumberDigits cs

/-- `Number(patient.AGE)` with `undefined` mapping to `NaN`. -/
def ageOf (p : Patient) : Option ℚ :=
  match getField p ("AGE") with
  | some s => jsNumber s
  | none => none

/-- One fixed histogram bin of `calculateAgeHistogram`. -/
structure AgeBin where
  label : String
  lo : ℚ
  hi : ℚ

/-- The fixed bin table of `calculateAgeHistogram` (`min`/`max` fields of
the source become `lo`/`hi`). -/
def ageBins : List AgeBin :=
  [⟨"<30", 0, 30⟩, ⟨"30-39", 30, 40⟩, ⟨"40-49", 40, 50⟩, ⟨"50-59", 50, 60⟩,
   ⟨"60-69", 60, 70⟩, ⟨"70-79", 70, 80⟩, ⟨"80+", 80, 200⟩]

/-- The inner bin-search loop with `break`: index of the first bin with
`lo ≤ age < hi`. -/
def findBinIdx (age : ℚ) : Option ℕ :=
  ageBins.findIdx? (fun b => decide (b.lo ≤ age) && decide (age < b.hi))

/-- One iteration of `calculateAgeHistogram`'s patient loop:
`counts[i]++` on the first matching bin, skipping non-numeric ages and
ages outside every bin. -/
def histStep (counts : List ℕ) (p : Patient) : List ℕ :=
  match ageOf p with
  | some age =>
    match findBinIdx age with
    | some i => counts.set i (counts.getD i 0 + 1)
    | none => counts
  | none => counts

/-- `calculateAgeHistogram` from the composable. -/
def calculateAgeHistogram (patients : List Patient) : ChartData ℕ :=
  ⟨ageBins.map (fun b => b.label),
   patients.foldl histStep (ageBins.map (fun _ => 0))⟩

/-- `extractSurvivalData` from the composable: keep patients with both
`OS_MONTHS` and `OS_STATUS` present, coerce months with `Number`, drop
`NaN` months (the map-then-filter of the source is fused into a
`filterMap`), sort ascending by months with the same stable comparator as
the Kaplan-Meier pre-sort.  The `patientId` field is read off the record;
`getD ""` models the (never exercised) `undefined` fallback. -/
def extractSurvivalData (patients : List Patient) : List SurvivalData :=
  List.insertionSort monthsLe
    ((patients.filter (fun p =>
        (getField p ("OS_MONTHS")).isSome &&
        (getField p ("OS_STATUS")).isSome)).filterMap
      (fun p =>
        match getField p ("OS_MONTHS"), getField p ("OS_STATUS") with
        | some m, some st =>
          (jsNumber m).map (fun q =>
            (⟨(getField p ("patientId")).getD (""), q, st⟩ : SurvivalData))
        | _, _ => none))

/-- The `Study` interface of the remote API. -/
structure Study where
  studyId : String
  name : String
  description : String
  publicStudy : Bool
  pmid : Option String
  citation : Option String
  groups : String
  status : ℤ
  importDate : String
  allSampleCount : ℤ
  readPermission : Bool
  cancerTypeId : String
  referenceGenome : String
deriving DecidableEq, Repr

/-- Shorthand for studies in concrete examples. -/
def mkStudy (id : String) (pub : Bool) (n : ℤ) : Study :=
  ⟨id, "", "", pub, none, none, "", 0, "", n, true, "", ""⟩

/-- `studyId.includes('pan_can_atlas')`. -/
def isPanCanId (id : String) : Bool :=
  containsSub ("pan_can_atlas").toList id.toList

/-- `studyId.includes('tcga')`. -/
def isTcgaId (id : String) : Bool := containsSub ("tcga").toList id.toList

/-- The comparator of `filterAndSortStudies`: PanCancer-Atlas studies
first, then TCGA studies, then sample count descending. -/
def cmpStudies (a b : Study) : ℤ :=
  if isPanCanId a.studyId && !(isPanCanId b.studyId) then -1
  else if !(isPanCanId a.studyId) && isPanCanId b.studyId then 1
  else if isTcgaId a.studyId && !(isTcgaId b.studyId) then -1
  else if !(isTcgaId a.studyId) && isTcgaId b.studyId then 1
  else b.allSampleCount - a.allSampleCount

/-- `a` may be placed before `b` by the stable sort. -/
def studyLe (a b : Study) : Prop := cmpStudies a b ≤ 0

instance : DecidableRel studyLe :=
  fun a b => inferInstanceAs (Decidable (cmpStudies a b ≤ 0))

/-- `filterAndSortStudies` from the composable: drop non-public studies,
stable-sort the rest by the comparator. -/
def filterAndSortStudies (studies : List Study) : List Study :=
  List.insertionSort studyLe (studies.filter (fun s => s.publicStudy))

/-- Spec side, the sort order in words: pan_can_atlas studies before other
studies, tcga before the rest, sample count descending as tiebreaker. -/
def studyPrecedes (a b : Study) : Prop :=
  (isPanCanId a.studyId = true ∧ isPanCanId b.studyId = false) ∨
  (isPanCanId a.studyId = isPanCanId b.studyId ∧
    ((isTcgaId a.studyId = true ∧ isTcgaId b.studyId = false) ∨
     (isTcgaId a.studyId = isTcgaId b.studyId ∧
       b.allSampleCount ≤ a.allSampleCount)))

/-- The `ClinicalAttribute` interface of the remote API. -/
structure ClinicalAttribute where
  clinicalAttributeId : String
  displayName : String
  description : String
  datatype : String
  patientAttribute : Bool
  priority : String
  studyId : String
deriving DecidableEq, Repr

/-- The `MolecularProfile` interface of the remote API. -/
structure MolecularProfile where
  molecularProfileId : String
  studyId : String
  molecularAlterationType : String
  datatype : String
  name : String
  description : String
  showProfileInAnalysisTab : Bool
deriving DecidableEq, Repr

/-- The `SampleList` interface of the remote API. -/
structure SampleList where
  sampleListId : String
  studyId : String
  name : String
  description : String
  category : String
  sampleCount : ℤ
deriving DecidableEq, Repr

/-- `fetchStudy`: the underlying `$fetch` outcome is the argument; a
failure is caught, logged, and becomes `null`. -/
def fetchStudy (r : Except String Study) : Option Study :=
  match r with
  | Except.ok study => some study
  | Except.error _ => none

/-- `fetchClinicalAttributes`: a failure becomes the empty collection. -/
def fetchClinicalAttributes (r : Except String (List ClinicalAttribute)) :
    List ClinicalAttribute :=
  match r with
  | Except.ok attributes => attributes
  | Except.error _ => []

/-- `fetchPatientClinicalData`: a failure becomes the empty collection. -/
def fetchPatientClinicalData (r : Except String (List ClinicalDataItem)) :
    List ClinicalDataItem :=
  match r with
  | Except.ok data => data
  | Except.error _ => []

/-- `fetchSampleClinicalData`: a failure becomes the empty collection. -/
def fetchSampleClinicalData (r : Except String (List ClinicalDataItem)) :
    List ClinicalDataItem :=
  match r with
  | Except.ok data => data
  | Except.error _ => []

/-- `fetchMolecularProfiles`: a failure becomes the empty collection. -/
def fetchMolecularProfiles (r : Except String (List MolecularProfile)) :
    List MolecularProfile :=
  match r with
  | Except.ok profiles => profiles
  | Except.error _ => []

/-- `fetchSampleLists`: a failure becomes the empty collection. -/
def fetchSampleLists (r : Except String (List SampleList)) :
    List SampleList :=
  match r with
  | Except.ok lists => lists
  | Except.error _ => []

/-- The bundle assembled by `fetchStudyData`. -/
structure StudyDataResult where
  study : Option Study
  clinicalAttributes : List ClinicalAttribute
  patients : List Patient
  sampleData : List ClinicalDataItem
  molecularProfiles : List MolecularProfile
  sampleLists : List SampleList
deriving DecidableEq, Repr

/-- `fetchStudyData`: the six per-study fetches run under `Promise.all`;
each argument is the corresponding underlying `$fetch` outcome.  Because
every fetcher catches its own failure (returning `null` or `[]`), the
`Promise.all` always resolves, the composable's `error` ref (first
component) stays `null`, and the bundle (second component) is always
produced; the `catch` branch that would set the error and return `null`
is unreachable for fetch failures. -/
def fetchStudyData (rStudy : Except String Study)
    (rAttrs : Except String (List ClinicalAttribute))
    (rPatientData : Except String (List ClinicalDataItem))
    (rSampleData : Except String (List ClinicalDataItem))
    (rProfiles : Except String (List MolecularProfile))
    (rLists : Except String (List SampleList)) :
    Option String × Option StudyDataResult :=
  (none, some
    { study := fetchStudy rStudy
      clinicalAttributes := fetchClinicalAttributes rAttrs
      patients := transformToPatients (fetchPatientClinicalData rPatientData)
      sampleData := fetchSampleClinicalData rSampleData
      molecularProfiles := fetchMolecularProfiles rProfiles
      sampleLists := fetchSampleLists rLists })

/-- A gene reference as consumed by the mutation summarizer. -/
structure Gene where
  hugoGeneSymbol : String
  entrezGeneId : ℤ
deriving DecidableEq, Repr

/-- The fields of a raw mutation record read by the summarizer. -/
structure MutationRecord where
  sampleId : String
  mutationType : String
  proteinChange : String
deriving DecidableEq, Repr

/-- The `MutationSummary` shape consumed by the results component. -/
structure MutationSummary where
  gene : Gene
  totalMutations : ℕ
  uniqueSamples : ℕ
  mutationRate : ℚ
  mutationTypes : ChartData ℕ
  topProteinChanges : List (String × ℕ)
deriving Repr

/-- Frequency counts of a plain string list, keys in first-encounter
order (the same `Map`-based counting as `calculateDistribution`). -/
def stringCounts (vs : List String) : List (String × ℕ) :=
  vs.foldl bumpCount []

/-- Modelled from the spec: `summarizeMutations` is exported by the
composable and called from the study page, but its body is not among the
provided sources.  Following §4.5: total mutation count is the record
count; unique mutated-sample count is the number of distinct sample
identifiers; mutation rate is unique count / study sample count × 100
with a division-by-zero guard yielding 0; the mutation-type distribution
uses the categorical-distribution algorithm; top protein changes are
ranked by descending count and truncated (spec default cap 10). -/
def summarizeMutations (mutations : List MutationRecord) (gene : Gene)
    (sampleCount : ℕ) : MutationSummary :=
  { gene := gene
    totalMutations := mutations.length
    uniqueSamples := (mutations.map (fun m => m.sampleId)).dedup.length
    mutationRate :=
      if sampleCount = 0 then 0
      else ((mutations.map (fun m => m.sampleId)).dedup.length : ℚ) /
        (sampleCount : ℚ) * 100
    mutationTypes :=
      ⟨(List.insertionSort countGe
          (stringCounts (mutations.map (fun m => m.mutationType)))).map
        (fun e => e.1),
       (List.insertionSort countGe
          (stringCounts (mutations.map (fun m => m.mutationType)))).map
        (fun e => e.2)⟩
    topProteinChanges :=
      (List.insertionSort countGe
        (stringCounts (mutations.map (fun m => m.proteinChange)))).take 10 }

/-- The survival list of the spec's worked Kaplan-Meier example:
`[(5, DECEASED), (10, LIVING), (15, DECEASED)]`. -/
def kmExample : List SurvivalData :=
  [⟨"P1", 5, "DECEASED"⟩, ⟨"P2", 10, "LIVING"⟩, ⟨"P3", 15, "DECEASED"⟩]

/-- Two rows for the same patient and attribute: last write wins. -/
def c2Example : List ClinicalDataItem :=
  [mkItem ("P1") ("S") ("A") ("1"), mkItem ("P1") ("S") ("A") ("2")]

/-- An input whose attribute identifier collides with the seeded
`patientId` field. -/
def c10Example : List ClinicalDataItem :=
  [mkItem ("P1") ("S1") ("patientId") ("HACK")]

/-- A single patient whose age is numeric but not below the `80+` bin's
ceiling of `200`. -/
def c4Example : List Patient := [[("AGE", "250")]]

/-- A sample clinical attribute used by the C5 counterexample. -/
def c5Attr : ClinicalAttribute :=
  ⟨"AGE", "Age", "", "NUMBER", true, "1", "study1"⟩

instance : IsTotal Study studyLe := ⟨by
  intro a b
  rw [studyLe, studyLe, cmpStudies, cmpStudies]
  cases hpa : isPanCanId a.studyId <;> cases hpb : isPanCanId b.studyId <;>
    cases hta : isTcgaId a.studyId <;> cases htb : isTcgaId b.studyId <;>
    simp <;> omega⟩

instance : IsTrans Study studyLe := ⟨by
  intro a b c hab hbc
  rw [studyLe, cmpStudies] at hab hbc ⊢
  cases hpa : isPanCanId a.studyId <;> cases hpb : isPanCanId b.studyId <;>
    cases hpc : isPanCanId c.studyId <;> cases hta : isTcgaId a.studyId <;>
    cases htb : isTcgaId b.studyId <;> cases htc : isTcgaId c.studyId <;>
    simp_all <;> omega⟩

/-- The concrete study list of the spec's filtering/sorting property. -/
def c8Example : List Study :=
  [mkStudy ("x_tcga") true 5, mkStudy ("y_pan_can_atlas_tcga") true 1,
   mkStudy ("z") false 100]

/-- The gene of the C9 example. -/
def c9Gene : Gene := ⟨"TP53", 7157⟩

/-- Twelve mutation records touching ten distinct samples. -/
def c9Muts : List MutationRecord :=
  [⟨"S1", "Missense", "R175H"⟩, ⟨"S2", "Missense", "R175H"⟩,
   ⟨"S3", "Nonsense", "R196X"⟩, ⟨"S4", "Missense", "R248Q"⟩,
   ⟨"S5", "Missense", "R273H"⟩, ⟨"S6", "Frameshift", "P152fs"⟩,
   ⟨"S7", "Missense", "G245S"⟩, ⟨"S8", "Splice", "X125"⟩,
   ⟨"S9", "Missense", "R282W"⟩, ⟨"S10", "Missense", "Y220C"⟩,
   ⟨"S1", "Nonsense", "R213X"⟩, ⟨"S2", "Missense", "V157F"⟩]

theorem getField_map_update (k v : String) :
    ∀ p : Patient,
      getField (p.map (fun f => if f.1 == k then (k, v) else f)) k =
        if p.any (fun f => f.1 == k) then some v else none := by
  intro p
  induction p with
  | nil => rfl
  | cons f t ih =>
    rw [List.map_cons]
    by_cases hf : f.1 == k
    · rw [if_pos hf]
      simp only [getField, List.find?, List.any_cons, hf, beq_self_eq_true,
        Bool.true_or, if_true, Option.map_some']
    · rw [if_neg hf]
      simp only [getField, List.find?, List.any_cons, hf, Bool.false_or] at ih ⊢
      exact ih

theorem getField_setField_self (p : Patient) (k v : String) :
    getField (setField p k v) k = some v := by
  rw [setField]
  by_cases h : p.any (fun f => f.1 == k)
  · rw [if_pos h, getField_map_update, if_pos h]
  · rw [if_neg h, getField, List.find?_append]
    have hn : p.find? (fun f => f.1 == k) = none := by
      rw [List.find?_eq_none]
      intro x hx
      have hfalse : p.any (fun f => f.1 == k) = false := Bool.eq_false_iff.mpr h
      have := List.any_eq_false.mp hfalse x hx
      simp only [this, Bool.false_eq_true, not_false_eq_true]
    rw [hn]
    simp [List.find?]

theorem getField_map_update_other (k v k' : String) (hne : k' ≠ k) :
    ∀ p : Patient,
      getField (p.map (fun f => if f.1 == k then (k, v) else f)) k' =
        getField p k' := by
  intro p
  induction p with
  | nil => rfl
  | cons f t ih =>
    rw [List.map_cons]
    by_cases hf : f.1 == k
    · rw [if_pos hf]
      have hf' : f.1 = k := by simpa using hf
      have h1 : ((k, v).1 == k') = false := by
        simp only [beq_eq_false_iff_ne, ne_eq]
        exact fun hkk => hne hkk.symm
      have h2 : (f.1 == k') = false := by
        simp only [beq_eq_false_iff_ne, ne_eq, hf']
        exact fun hkk => hne hkk.symm
      simp only [getField, List.find?, h1, h2] at ih ⊢
      exact ih
    · rw [if_neg hf]
      simp only [getField, List.find?] at ih ⊢
      by_cases hfk : f.1 == k'
      · simp only [hfk]
      · simp only [hfk]
        exact ih

theorem getField_setField_other (p : Patient) (k v k' : String) (hne : k' ≠ k) :
    getField (setField p k v) k' = getField p k' := by
  rw [setField]
  by_cases h : p.any (fun f => f.1 == k)
  · rw [if_pos h]
    exact getField_map_update_other k v k' hne p
  · rw [if_neg h, getField, getField, List.find?_append]
    have h1 : [(k, v)].find? (fun f => f.1 == k') = none := by
      have hb : ((k, v).1 == k') = false := by
        simp only [beq_eq_false_iff_ne, ne_eq]
        exact fun hkk => hne hkk.symm
      simp [List.find?, hb]
    rw [h1]
    cases hp : p.find? (fun f => f.1 == k') <;> simp [Option.or]

theorem applyItems_append (items : List ClinicalDataItem)
    (it : ClinicalDataItem) (pid : String) (acc : Patient) :
    applyItems (items ++ [it]) pid acc =
      if it.patientId == pid then
        setField (applyItems items pid acc) it.clinicalAttributeId it.value
      else applyItems items pid acc := by
  simp only [applyItems, List.foldl_append, List.foldl_cons, List.foldl_nil]

theorem applyItems_nomatch (pid : String) :
    ∀ (items : List ClinicalDataItem) (acc : Patient),
      (∀ x ∈ items, ¬ x.patientId = pid) → applyItems items pid acc = acc := by
  intro items
  induction items with
  | nil => intro acc _; rfl
  | cons it t ih =>
    intro acc h
    have hit : (it.patientId == pid) = false := by
      simp only [beq_eq_false_iff_ne, ne_eq]
      exact h it (List.mem_cons_self it t)
    simp only [applyItems, List.foldl_cons, hit, Bool.false_eq_true, if_false]
    exact ih acc (fun x hx => h x (List.mem_cons_of_mem it hx))

theorem buildRecord_append_seen (done : List ClinicalDataItem)
    (it : ClinicalDataItem) (pid : String)
    (h : (done.find? (fun x => x.patientId == pid)).isSome) :
    buildRecord (done ++ [it]) pid =
      if it.patientId == pid then
        setField (buildRecord done pid) it.clinicalAttributeId it.value
      else buildRecord done pid := by
  obtain ⟨f, hf⟩ := Option.isSome_iff_exists.mp h
  rw [buildRecord, buildRecord, List.find?_append, hf]
  simp only [Option.or]
  rw [applyItems_append]

theorem buildRecord_append_new (done : List ClinicalDataItem)
    (it : ClinicalDataItem) (pid : String)
    (h : done.find? (fun x => x.patientId == pid) = none)
    (hit : (it.patientId == pid) = true) :
    buildRecord (done ++ [it]) pid =
      setField [("patientId", pid), ("studyId", it.studyId)]
        it.clinicalAttributeId it.value := by
  rw [buildRecord, List.find?_append, h]
  have hfind : [it].find? (fun x => x.patientId == pid) = some it := by
    simp [List.find?, hit]
  rw [Option.none_or, hfind]
  rw [applyItems_append, if_pos hit]
  congr 1
  apply applyItems_nomatch
  intro x hx hxeq
  have := List.find?_eq_none.mp h x hx
  simp only [hxeq, beq_self_eq_true, not_true_eq_false] at this

theorem firstSightings_append (items : List ClinicalDataItem)
    (it : ClinicalDataItem) :
    firstSightings (items ++ [it]) =
      if (firstSightings items).any (fun s => s == it.patientId) then
        firstSightings items
      else firstSightings items ++ [it.patientId] := by
  rw [firstSightings, firstSightings, List.foldl_append]
  rfl

theorem mem_firstSightings (pid : String) :
    ∀ items : List ClinicalDataItem,
      pid ∈ firstSightings items ↔ ∃ x ∈ items, x.patientId = pid := by
  intro items
  induction items using List.reverseRecOn with
  | nil => simp [firstSightings]
  | append_singleton done it ih =>
    rw [firstSightings_append]
    by_cases hc : (firstSightings done).any (fun s => s == it.patientId)
    · rw [if_pos hc]
      rw [ih]
      constructor
      · rintro ⟨x, hx, hxe⟩
        exact ⟨x, List.mem_append_left _ hx, hxe⟩
      · rintro ⟨x, hx, hxe⟩
        rcases List.mem_append.mp hx with hx | hx
        · exact ⟨x, hx, hxe⟩
        · -- x = it; its patient id is already sighted
          have hxit : x = it := by simpa using hx
          subst hxit
          obtain ⟨s, hs, hse⟩ := List.any_eq_true.mp hc
          have hse' : s = x.patientId := by simpa using hse
          subst hse'
          exact (ih.mp (hxe ▸ hs))
    · rw [if_neg hc]
      constructor
      · intro hmem
        rcases List.mem_append.mp hmem with hmem | hmem
        · obtain ⟨x, hx, hxe⟩ := ih.mp hmem
          exact ⟨x, List.mem_append_left _ hx, hxe⟩
        · have : pid = it.patientId := by simpa using hmem
          exact ⟨it, List.mem_append_right _ (List.mem_singleton_self it), this.symm⟩
      · rintro ⟨x, hx, hxe⟩
        rcases List.mem_append.mp hx with hx | hx
        · exact List.mem_append_left _ (ih.mpr ⟨x, hx, hxe⟩)
        · have hxit : x = it := by simpa using hx
          subst hxit
          apply List.mem_append_right
          simp [hxe]

theorem find?_isSome_of_mem_sightings (done : List ClinicalDataItem)
    (pid : String) (h : pid ∈ firstSightings done) :
    (done.find? (fun x => x.patientId == pid)).isSome := by
  obtain ⟨x, hx, hxe⟩ := (mem_firstSightings pid done).mp h
  rw [Option.isSome_iff_ne_none]
  intro hn
  have := List.find?_eq_none.mp hn x hx
  simp [hxe] at this

/-- The patient map after one more item is the seeded/updated map of the
extended item list. -/
theorem transformStep_eq (done : List ClinicalDataItem)
    (it : ClinicalDataItem) :
    transformStep
        ((firstSightings done).map (fun pid => (pid, buildRecord done pid)))
        it =
      (firstSightings (done ++ [it])).map
        (fun pid => (pid, buildRecord (done ++ [it]) pid)) := by
  rw [transformStep]
  have hany : ∀ l : List String, (l.map
        (fun pid => (pid, buildRecord done pid))).any
        (fun e => e.1 == it.patientId) =
      l.any (fun s => s == it.patientId) := by
    intro l
    induction l with
    | nil => rfl
    | cons s t ih => simp only [List.map_cons, List.any_cons, ih]
  rw [hany, firstSightings_append]
  by_cases hc : (firstSightings done).any (fun s => s == it.patientId)
  · rw [if_pos hc, if_pos hc]
    rw [List.map_map]
    apply List.map_congr_left
    intro pid hpid
    simp only [Function.comp]
    have hseen := find?_isSome_of_mem_sightings done pid hpid
    rw [buildRecord_append_seen done it pid hseen]
    by_cases hp : (pid == it.patientId) = true
    · have hp' : (it.patientId == pid) = true := by
        have he : pid = it.patientId := by simpa using hp
        simp [he]
      simp only [hp, hp', if_true]
    · have hpf : (pid == it.patientId) = false := Bool.eq_false_iff.mpr hp
      have hp' : (it.patientId == pid) = false := by
        have he : ¬ pid = it.patientId := by simpa using hpf
        simp only [beq_eq_false_iff_ne, ne_eq]
        exact fun e => he e.symm
      simp only [hpf, hp', Bool.false_eq_true, if_false]
  · rw [if_neg hc, if_neg hc]
    rw [List.map_append, List.map_append, List.map_map]
    have hcf : (firstSightings done).any (fun s => s == it.patientId) = false :=
      Bool.eq_false_iff.mpr hc
    have hnone : done.find? (fun x => x.patientId == it.patientId) = none := by
      rw [List.find?_eq_none]
      intro x hx hpx
      have hxe : x.patientId = it.patientId := by simpa using hpx
      have : it.patientId ∈ firstSightings done :=
        (mem_firstSightings it.patientId done).mpr ⟨x, hx, hxe⟩
      have := List.any_eq_false.mp hcf it.patientId this
      simp at this
    congr 1
    · apply List.map_congr_left
      intro pid hpid
      simp only [Function.comp]
      have hseen := find?_isSome_of_mem_sightings done pid hpid
      rw [buildRecord_append_seen done it pid hseen]
      have hpf : (pid == it.patientId) = false := by
        have := List.any_eq_false.mp hcf pid hpid
        exact Bool.eq_false_iff.mpr this
      have hp' : (it.patientId == pid) = false := by
        have he : ¬ pid = it.patientId := by simpa using hpf
        simp only [beq_eq_false_iff_ne, ne_eq]
        exact fun e => he e.symm
      simp only [hpf, hp', Bool.false_eq_true, if_false]
    · rw [List.map_cons, List.map_nil, List.map_cons, List.map_nil]
      simp only [beq_self_eq_true, if_true]
      rw [buildRecord_append_new done it it.patientId hnone (by simp)]

/-- `transformToPatients`' fold equals, pointwise in first-sighting order,
the reference records built per patient. -/
theorem transform_eq (items : List ClinicalDataItem) :
    items.foldl transformStep [] =
      (firstSightings items).map (fun pid => (pid, buildRecord items pid)) := by
  induction items using List.reverseRecOn with
  | nil => rfl
  | append_singleton done it ih =>
    rw [List.foldl_append, List.foldl_cons, List.foldl_nil, ih,
      transformStep_eq]

theorem mem_of_getLast?_eq_some {α : Type} {l : List α} {a : α}
    (h : l.getLast? = some a) : a ∈ l := by
  have hm : a ∈ l.getLast? := by rw [h]; rfl
  obtain ⟨hne, heq⟩ := List.mem_getLast?_eq_getLast hm
  rw [heq]
  exact List.getLast_mem hne

theorem exists_item_of_lastValue (items : List ClinicalDataItem)
    (pid attr v : String) (h : lastValue items pid attr = some v) :
    ∃ x ∈ items, x.patientId = pid := by
  rw [lastValue] at h
  cases hgl : (items.filter (fun it =>
      it.patientId == pid && it.clinicalAttributeId == attr)).getLast? with
  | none => rw [hgl] at h; exact absurd h (by simp)
  | some x =>
    have hx := mem_of_getLast?_eq_some hgl
    have hpred := List.of_mem_filter hx
    have hmem := List.mem_of_mem_filter hx
    have : x.patientId = pid := by
      have := (Bool.and_eq_true _ _).mp hpred
      simpa using this.1
    exact ⟨x, hmem, this⟩

/-- The reference record holds, for every attribute that occurs for its
patient, the last value assigned to it in input order. -/
theorem buildRecord_lastValue (items : List ClinicalDataItem) :
    ∀ (pid attr v : String), lastValue items pid attr = some v →
      getField (buildRecord items pid) attr = some v := by
  induction items using List.reverseRecOn with
  | nil =>
    intro pid attr v h
    exact absurd h (by simp [lastValue])
  | append_singleton done it ih =>
    intro pid attr v h
    rw [lastValue, List.filter_append] at h
    by_cases hm : (it.patientId == pid && it.clinicalAttributeId == attr) = true
    · rw [show List.filter (fun x =>
          x.patientId == pid && x.clinicalAttributeId == attr) [it] = [it] by
        simp [List.filter, hm]] at h
      rw [List.getLast?_concat] at h
      have hv : it.value = v := by simpa using h
      obtain ⟨hp, ha⟩ := (Bool.and_eq_true _ _).mp hm
      have ha' : it.clinicalAttributeId = attr := by simpa using ha
      by_cases hseen : (done.find? (fun x => x.patientId == pid)).isSome
      · rw [buildRecord_append_seen done it pid hseen, if_pos hp, ha', hv,
          getField_setField_self]
      · have hnone : done.find? (fun x => x.patientId == pid) = none := by
          cases hfd : done.find? (fun x => x.patientId == pid) with
          | none => rfl
          | some f => rw [hfd] at hseen; exact absurd rfl hseen
        rw [buildRecord_append_new done it pid hnone hp, ha', hv,
          getField_setField_self]
    · rw [show List.filter (fun x =>
          x.patientId == pid && x.clinicalAttributeId == attr) [it] = [] by
        simp only [List.filter]
        rw [Bool.eq_false_iff.mpr hm]] at h
      rw [List.append_nil] at h
      have h' : lastValue done pid attr = some v := h
      have hseen : (done.find? (fun x => x.patientId == pid)).isSome := by
        obtain ⟨x, hx, hxe⟩ := exists_item_of_lastValue done pid attr v h'
        rw [Option.isSome_iff_ne_none]
        intro hn
        have := List.find?_eq_none.mp hn x hx
        simp [hxe] at this
      rw [buildRecord_append_seen done it pid hseen]
      by_cases hp : (it.patientId == pid) = true
      · have ha : ¬ (it.clinicalAttributeId == attr) = true := by
          intro ha
          exact hm ((Bool.and_eq_true _ _).mpr ⟨hp, ha⟩)
        have ha' : attr ≠ it.clinicalAttributeId := by
          intro he
          exact ha (by simp [he])
        rw [if_pos hp, getField_setField_other _ _ _ _ ha']
        exact ih pid attr v h'
      · rw [if_neg hp]
        exact ih pid attr v h'

/-- Helper: evaluate `jsToFixed0` once the floor value is known. -/
theorem jsToFixed0_eval (q : ℚ) (n : ℕ) (h0 : 0 ≤ q) (hf : ⌊q + 1/2⌋ = (n : ℤ)) :
    jsToFixed0 q = toString ((n : ℤ)) := by
  rw [jsToFixed0, if_pos h0]
  show toString (⌊q + 1/2⌋) = _
  rw [hf]

/-- Evaluation of the Kaplan-Meier curve on the spec's worked example: the
censored event at month 10 leaves only one patient at risk for the death at
month 15, so the final survival value is `0`. -/
theorem km_example_eval :
    calculateKaplanMeier kmExample = ⟨["0", "5", "15"], [100, 200/3, 0]⟩ := by
  have hsort : List.insertionSort monthsLe kmExample = kmExample := by
    simp only [kmExample, List.insertionSort, List.orderedInsert]
    norm_num [monthsLe]
  have h1 : isDeceased ("DECEASED") = true := by decide
  have h2 : isDeceased ("LIVING") = false := by decide
  rw [calculateKaplanMeier]
  rw [if_neg (by decide)]
  simp only [hsort]
  simp only [kmLoop, kmExample, h1, h2, if_true, if_false]
  simp only [List.length_cons, List.length_nil, List.map_cons, List.map_nil]
  have e0 : jsToFixed0 0 = "0" := by
    rw [jsToFixed0_eval 0 0 (by norm_num) (by norm_num)]; decide
  have e5 : jsToFixed0 5 = "5" := by
    rw [jsToFixed0_eval 5 5 (by norm_num) (by norm_num)]; decide
  have e15 : jsToFixed0 15 = "15" := by
    rw [jsToFixed0_eval 15 15 (by norm_num) (by norm_num)]; decide
  norm_num
  exact ⟨e0, e5, e15⟩

/-- The loop of the Kaplan-Meier estimator never increases the survival
value: as long as `atRisk` bounds the number of remaining events from
above, every appended point rescales the running survival by a factor in
`[0, 1]`. -/
theorem kmLoop_chain' (items : List SurvivalData) :
    ∀ (atRisk survival : ℚ) (points : List KMPoint),
      (items.length : ℚ) ≤ atRisk →
      0 ≤ survival →
      List.Chain' (fun a b => b.survival ≤ a.survival) points →
      (∀ x ∈ points.getLast?, survival ≤ x.survival) →
      List.Chain' (fun a b => b.survival ≤ a.survival)
        (kmLoop items atRisk survival points) := by
  induction items with
  | nil => intro _ _ _ _ _ hchain _; exact hchain
  | cons item rest ih =>
    intro atRisk survival points hAt hsur hchain hlast
    have hlen : (rest.length : ℚ) + 1 ≤ atRisk := by
      simp only [List.length_cons] at hAt
      push_cast at hAt
      linarith
    have hrest : (0:ℚ) ≤ (rest.length : ℚ) := by positivity
    have h1le : (1:ℚ) ≤ atRisk := by linarith
    rw [kmLoop]
    by_cases hd : isDeceased item.status
    · rw [if_pos hd]
      have hfact0 : (0:ℚ) ≤ (atRisk - 1) / atRisk := by
        apply div_nonneg <;> linarith
      have hfact1 : (atRisk - 1) / atRisk ≤ 1 := by
        rw [div_le_one (by linarith)]; linarith
      have hs0 : 0 ≤ survival * ((atRisk - 1) / atRisk) := mul_nonneg hsur hfact0
      have hsle : survival * ((atRisk - 1) / atRisk) ≤ survival := by
        calc survival * ((atRisk - 1) / atRisk) ≤ survival * 1 :=
              mul_le_mul_of_nonneg_left hfact1 hsur
        _ = survival := mul_one survival
      apply ih (atRisk - 1) _ _ (by linarith) hs0
      · rw [List.chain'_append]
        refine ⟨hchain, List.chain'_singleton _, ?_⟩
        intro x hx y hy
        simp only [List.head?_cons, Option.mem_def, Option.some.injEq] at hy
        subst hy
        exact le_trans hsle (hlast x hx)
      · intro x hx
        rw [List.getLast?_concat] at hx
        simp only [Option.mem_def, Option.some.injEq] at hx
        subst hx
        exact le_refl _
    · rw [if_neg hd]
      exact ih (atRisk - 1) survival points (by linarith) hsur hchain hlast

/-- C1.  The claim's concrete expectation is false on the code: the
censored event at month 10 still decrements the at-risk count, so the
death at month 15 is processed with `atRisk = 1` and rescales survival by
`(1-1)/1 = 0`, not by `1/2`.  The code returns `(0,100), (5, 100*2/3),
(15, 0)`, and its survival values are monotonically non-increasing for
every input, as proved in `kaplanMeier_c1`.  This theorem exhibits the
discrepancy at the claim's own input. -/
theorem kaplanMeier_c1_counterexample :
    (calculateKaplanMeier kmExample).values ≠
      [100, 100 * (2/3), 100 * (2/3) * (1/2)] := by
  rw [km_example_eval]
  intro h
  have h2 := List.tail_eq_of_cons_eq (List.tail_eq_of_cons_eq h)
  have : (0 : ℚ) = 100 * (2/3) * (1/2) := List.head_eq_of_cons_eq h2
  norm_num at this

/-- C1 (amended).  On the input `[(5, DECEASED), (10, LIVING),
(15, DECEASED)]` the Kaplan-Meier routine returns exactly the points
`(0,100), (5, 100*2/3), (15, 0)` — the censored event at month 10 adds no
point but still decrements the at-risk count, so the death at month 15 is
processed with one patient at risk and survival drops to `0` — and for
every input list the output survival values are monotonically
non-increasing. -/
theorem kaplanMeier_c1 :
    calculateKaplanMeier kmExample = ⟨["0", "5", "15"], [100, 200/3, 0]⟩ ∧
    ∀ data : List SurvivalData,
      List.Chain' (fun a b => b ≤ a) (calculateKaplanMeier data).values := by
  refine ⟨km_example_eval, ?_⟩
  intro data
  rw [calculateKaplanMeier]
  split
  · exact List.chain'_nil
  · simp only []
    rw [List.chain'_map]
    apply kmLoop_chain'
    · exact le_refl _
    · norm_num
    · exact List.chain'_singleton _
    · intro x hx
      simp only [List.getLast?_singleton, Option.mem_def, Option.some.injEq] at hx
      subst hx
      norm_num

/-- C7.  The reported median survival is the label of the first point, in
curve order, whose survival value is `≤ 50`; when every plotted value
stays above `50`, the sentinel string is reported instead.  The curve's
labels and values have equal length, so the indexed label is the matching
point's time label. -/
theorem medianSurvival_c7 (data : List SurvivalData) :
    ((calculateKaplanMeier data).labels.length =
        (calculateKaplanMeier data).values.length) ∧
    ((∀ v ∈ (calculateKaplanMeier data).values, 50 < v) →
      medianSurvival (calculateKaplanMeier data) = "Not reached") ∧
    (∀ i, i < (calculateKaplanMeier data).values.length →
      (calculateKaplanMeier data).values.getD i 0 ≤ 50 →
      (∀ j, j < i → 50 < (calculateKaplanMeier data).values.getD j 0) →
      medianSurvival (calculateKaplanMeier data) =
        (calculateKaplanMeier data).labels.getD i ("undefined")) := by
  refine ⟨?_, ?_, ?_⟩
  · rw [calculateKaplanMeier]
    split
    · rfl
    · simp only [List.length_map]
  · intro hall
    rw [medianSurvival]
    have hnone : (calculateKaplanMeier data).values.findIdx?
        (fun v => decide (v ≤ 50)) = none := by
      rw [List.findIdx?_eq_none_iff]
      intro v hv
      simp only [decide_eq_false_iff_not, not_le]
      exact hall v hv
    rw [hnone]
  · intro i hi hle hfirst
    rw [medianSurvival]
    have hsome : (calculateKaplanMeier data).values.findIdx?
        (fun v => decide (v ≤ 50)) = some i := by
      rw [List.findIdx?_eq_some_iff_getElem]
      refine ⟨hi, ?_, ?_⟩
      · simp only [decide_eq_true_eq]
        rw [← List.getD_eq_getElem _ 0 hi]
        exact hle
      · intro j hji
        simp only [decide_eq_true_eq, not_le]
        rw [← List.getD_eq_getElem _ 0 (Nat.lt_trans hji hi)]
        exact hfirst j hji
    rw [hsome]

/-- C2.  `transformToPatients` produces exactly one record per distinct
patient identifier, in first-sighting order of the identifiers (the i-th
record is the record of the i-th first-seen identifier, expressed through
the zip); and for every (patient, attribute) pair present in the input the
record holds the value of the last input item for that pair. -/
theorem transformToPatients_c2 (items : List ClinicalDataItem) :
    (transformToPatients items).length = (firstSightings items).length ∧
    ∀ p ∈ (firstSightings items).zip (transformToPatients items),
      ∀ attr v : String, lastValue items p.1 attr = some v →
        getField p.2 attr = some v := by
  have htr : transformToPatients items =
      (firstSightings items).map (fun pid => buildRecord items pid) := by
    rw [transformToPatients, transform_eq, List.map_map]
    rfl
  constructor
  · rw [htr, List.length_map]
  · intro p hp attr v hlast
    rw [htr] at hp
    have hzip : ∀ l : List String,
        l.zip (l.map (fun pid => buildRecord items pid)) =
          l.map (fun pid => (pid, buildRecord items pid)) := by
      intro l
      induction l with
      | nil => rfl
      | cons s t ih => simp only [List.map_cons, List.zip_cons_cons, ih]
    rw [hzip] at hp
    obtain ⟨pid, hpid, rfl⟩ := List.mem_map.mp hp
    exact buildRecord_lastValue items pid attr v hlast

/-- C2 witness: on a duplicate-attribute input the single output record
holds the later value. -/
theorem transformToPatients_c2_witness :
    getField ([("patientId", "P1"), ("studyId", "S"), ("A", "2")] : Patient)
      ("A") = some ("2") :=
  (transformToPatients_c2 c2Example).2
    (("P1", [("patientId", "P1"), ("studyId", "S"), ("A", "2")]))
    (by decide) ("A") ("2") (by decide)

/-- C10.  An item whose clinical-attribute identifier is the literal
string `patientId` overwrites the seeded identifier field: grouped under
`P1`, the output record's `patientId` field ends up `HACK`. -/
theorem transformToPatients_c10 :
    firstSightings c10Example = ["P1"] ∧
    (transformToPatients c10Example).map
      (fun p => getField p ("patientId")) = [some ("HACK")] ∧
    ("HACK" : String) ≠ "P1" := by decide

theorem map_update_id {β : Type} (key : String) (f : String × β → String × β)
    (t : List (String × β)) (h : ∀ x ∈ t, (x.1 == key) = false) :
    t.map (fun e => if e.1 == key then f e else e) = t := by
  induction t with
  | nil => rfl
  | cons b t ih =>
    rw [List.map_cons]
    rw [h b (List.mem_cons_self b t)]
    simp only [Bool.false_eq_true, if_false]
    rw [ih (fun x hx => h x (List.mem_cons_of_mem b hx))]

theorem bump_map_sum_of_any (key : String) :
    ∀ counts : List (String × ℕ),
      (counts.map (fun e => e.1)).Nodup →
      counts.any (fun e => e.1 == key) = true →
      (((counts.map (fun e => if e.1 == key then (e.1, e.2 + 1) else e)).map
        (fun e => e.2)).sum) = ((counts.map (fun e => e.2)).sum) + 1 := by
  intro counts
  induction counts with
  | nil => intro _ h; simp at h
  | cons b t ih =>
    intro hnd hany
    rw [List.map_cons] at hnd
    have hnd' := List.nodup_cons.mp hnd
    by_cases hb : (b.1 == key) = true
    · have hb' : b.1 = key := by simpa using hb
      have htail : ∀ x ∈ t, (x.1 == key) = false := by
        intro x hx
        simp only [beq_eq_false_iff_ne, ne_eq]
        intro he
        apply hnd'.1
        have hmem : x.1 ∈ t.map (fun e => e.1) := List.mem_map_of_mem _ hx
        rw [hb', ← he]
        exact hmem
      rw [List.map_cons, hb]
      simp only [if_true]
      rw [map_update_id key _ t htail]
      simp only [List.map_cons, List.sum_cons]
      omega
    · have hbf : (b.1 == key) = false := Bool.eq_false_iff.mpr hb
      have hany' : t.any (fun e => e.1 == key) = true := by
        simp only [List.any_cons, hbf, Bool.false_or] at hany
        exact hany
      rw [List.map_cons, hbf]
      simp only [Bool.false_eq_true, if_false, List.map_cons, List.sum_cons]
      rw [ih hnd'.2 hany']
      omega

theorem bumpCount_sum (key : String) (counts : List (String × ℕ))
    (hnd : (counts.map (fun e => e.1)).Nodup) :
    ((bumpCount counts key).map (fun e => e.2)).sum =
      ((counts.map (fun e => e.2)).sum) + 1 := by
  rw [bumpCount]
  by_cases h : counts.any (fun e => e.1 == key) = true
  · rw [if_pos h]
    exact bump_map_sum_of_any key counts hnd h
  · rw [if_neg h]
    simp

theorem bumpCount_keys (counts : List (String × ℕ)) (key : String) :
    (bumpCount counts key).map (fun e => e.1) =
      if counts.any (fun e => e.1 == key) then counts.map (fun e => e.1)
      else counts.map (fun e => e.1) ++ [key] := by
  rw [bumpCount]
  by_cases h : counts.any (fun e => e.1 == key) = true
  · rw [if_pos h, if_pos h, List.map_map]
    apply List.map_congr_left
    intro e _
    simp only [Function.comp]
    split <;> rfl
  · rw [if_neg h, if_neg h, List.map_append]
    rfl

theorem distributionCounts_append_none (patients : List Patient)
    (p : Patient) (attributeId : String)
    (hg : getField p attributeId = none) :
    distributionCounts (patients ++ [p]) attributeId =
      distributionCounts patients attributeId := by
  simp only [distributionCounts, List.foldl_append, List.foldl_cons,
    List.foldl_nil, hg]

theorem distributionCounts_append_some (patients : List Patient)
    (p : Patient) (attributeId v : String)
    (hg : getField p attributeId = some v) (hv : v ≠ "") :
    distributionCounts (patients ++ [p]) attributeId =
      bumpCount (distributionCounts patients attributeId) v := by
  simp only [distributionCounts, List.foldl_append, List.foldl_cons,
    List.foldl_nil, hg]
  rw [if_pos hv]

theorem distributionCounts_append_empty (patients : List Patient)
    (p : Patient) (attributeId : String)
    (hg : getField p attributeId = some ("" )) :
    distributionCounts (patients ++ [p]) attributeId =
      distributionCounts patients attributeId := by
  simp only [distributionCounts, List.foldl_append, List.foldl_cons,
    List.foldl_nil, hg]
  rw [if_neg (by simp)]

theorem distributionCounts_keys_nodup (attributeId : String) :
    ∀ patients : List Patient,
      ((distributionCounts patients attributeId).map
        (fun e => e.1)).Nodup := by
  intro patients
  induction patients using List.reverseRecOn with
  | nil => exact List.nodup_nil
  | append_singleton ps p ih =>
    cases hg : getField p attributeId with
    | none => rw [distributionCounts_append_none ps p attributeId hg]; exact ih
    | some v =>
      by_cases hv : v ≠ ""
      · rw [distributionCounts_append_some ps p attributeId v hg hv,
          bumpCount_keys]
        by_cases h : (distributionCounts ps attributeId).any
            (fun e => e.1 == v) = true
        · rw [if_pos h]; exact ih
        · rw [if_neg h]
          have hvnot : v ∉ (distributionCounts ps attributeId).map
              (fun e => e.1) := by
            intro hmem
            apply h
            rw [List.any_eq_true]
            obtain ⟨e, he, hev⟩ := List.mem_map.mp hmem
            exact ⟨e, he, by simp [hev]⟩
          simp [List.nodup_append, ih, hvnot]
      · have hv' : v = "" := by simpa using hv
        subst hv'
        rw [distributionCounts_append_empty ps p attributeId hg]
        exact ih

theorem distributionCounts_sum (attributeId : String) :
    ∀ patients : List Patient,
      ((distributionCounts patients attributeId).map
        (fun e => e.2)).sum =
      (patients.filter
        (fun p => !((getField p attributeId).getD ("") == ""))).length := by
  intro patients
  induction patients using List.reverseRecOn with
  | nil => rfl
  | append_singleton ps p ih =>
    rw [List.filter_append, List.length_append]
    cases hg : getField p attributeId with
    | none =>
      rw [distributionCounts_append_none ps p attributeId hg]
      have : List.filter (fun p => !((getField p attributeId).getD ("") == ""))
          [p] = [] := by
        simp [List.filter, hg]
      rw [this, ih]
      simp
    | some v =>
      by_cases hv : v ≠ ""
      · rw [distributionCounts_append_some ps p attributeId v hg hv]
        have hfil : List.filter
            (fun p => !((getField p attributeId).getD ("") == "")) [p] = [p] := by
          have hb : (v == "") = false := by
            simp only [beq_eq_false_iff_ne, ne_eq]
            exact hv
          simp [List.filter, hg, hb]
        rw [hfil, bumpCount_sum v _ (distributionCounts_keys_nodup attributeId ps), ih]
        simp
      · have hv' : v = "" := by simpa using hv
        subst hv'
        rw [distributionCounts_append_empty ps p attributeId hg]
        have hfil : List.filter
            (fun p => !((getField p attributeId).getD ("") == "")) [p] = [] := by
          simp [List.filter, hg]
        rw [hfil, ih]
        simp

theorem filter_orderedInsert_pos (p : String × ℕ → Bool) (x : String × ℕ)
    (hpx : p x = true) (hskip : ∀ b, ¬ countGe x b → p b = false) :
    ∀ l : List (String × ℕ),
      (List.orderedInsert countGe x l).filter p = x :: l.filter p := by
  intro l
  induction l with
  | nil => simp [List.orderedInsert, List.filter, hpx]
  | cons b t ih =>
    rw [List.orderedInsert]
    by_cases h : countGe x b
    · rw [if_pos h]
      simp only [List.filter, hpx]
    · rw [if_neg h]
      have hb : p b = false := hskip b h
      simp only [List.filter, hb, hpx] at ih ⊢
      rw [ih]

theorem filter_orderedInsert_neg (p : String × ℕ → Bool) (x : String × ℕ)
    (hpx : p x = false) :
    ∀ l : List (String × ℕ),
      (List.orderedInsert countGe x l).filter p = l.filter p := by
  intro l
  induction l with
  | nil => simp [List.orderedInsert, List.filter, hpx]
  | cons b t ih =>
    rw [List.orderedInsert]
    by_cases h : countGe x b
    · rw [if_pos h]
      simp only [List.filter, hpx]
    · rw [if_neg h]
      simp only [List.filter] at ih ⊢
      cases hb : p b
      · exact ih
      · rw [ih]

/-- The sort of `calculateDistribution` is stable: entries with any given
count keep their relative (first-encounter) order. -/
theorem filter_insertionSort_count (n : ℕ) :
    ∀ l : List (String × ℕ),
      (List.insertionSort countGe l).filter (fun e => e.2 == n) =
        l.filter (fun e => e.2 == n) := by
  intro l
  induction l with
  | nil => rfl
  | cons x t ih =>
    rw [List.insertionSort]
    by_cases hx : (x.2 == n) = true
    · rw [filter_orderedInsert_pos _ x hx ?_]
      · simp only [List.filter, hx]
        rw [ih]
      · intro b hb
        have hxn : x.2 = n := by simpa using hx
        have : x.2 < b.2 := by
          simp only [countGe, not_le] at hb
          exact hb
        simp only [beq_eq_false_iff_ne, ne_eq]
        omega
    · have hxf : (x.2 == n) = false := Bool.eq_false_iff.mpr hx
      rw [filter_orderedInsert_neg _ x hxf]
      simp only [List.filter, hxf]
      exact ih

theorem zip_map_fst_snd {α β : Type} :
    ∀ l : List (α × β),
      (l.map (fun e => e.1)).zip (l.map (fun e => e.2)) = l := by
  intro l
  induction l with
  | nil => rfl
  | cons x t ih => simp only [List.map_cons, List.zip_cons_cons, ih]

/-- C3.  `calculateDistribution` returns label/value sequences of equal
length; the values sum to the number of input records with a present,
non-empty value for the attribute; the values are sorted non-increasing;
and the sort is stable: for every count, the (label, value) pairs with
that count appear in the same order as in the first-encounter count
list. -/
theorem calculateDistribution_c3 (patients : List Patient)
    (attributeId : String) :
    ((calculateDistribution patients attributeId).labels.length =
      (calculateDistribution patients attributeId).values.length) ∧
    ((calculateDistribution patients attributeId).values.sum =
      (patients.filter
        (fun p => !((getField p attributeId).getD ("") == ""))).length) ∧
    List.Chain' (fun a b => b ≤ a)
      (calculateDistribution patients attributeId).values ∧
    (∀ n : ℕ,
      ((calculateDistribution patients attributeId).labels.zip
        (calculateDistribution patients attributeId).values).filter
          (fun e => e.2 == n) =
      (distributionCounts patients attributeId).filter
        (fun e => e.2 == n)) := by
  refine ⟨?_, ?_, ?_, ?_⟩
  · simp only [calculateDistribution, List.length_map]
  · rw [calculateDistribution]
    have hperm : (List.insertionSort countGe
        (distributionCounts patients attributeId)).map (fun e => e.2) ~
        (distributionCounts patients attributeId).map (fun e => e.2) :=
      (List.perm_insertionSort countGe _).map _
    rw [hperm.sum_eq]
    exact distributionCounts_sum attributeId patients
  · rw [calculateDistribution]
    have hs := List.sorted_insertionSort countGe
      (distributionCounts patients attributeId)
    have hp : List.Pairwise (fun a b : ℕ => b ≤ a)
        ((List.insertionSort countGe
          (distributionCounts patients attributeId)).map (fun e => e.2)) :=
      List.Pairwise.map _ (fun a b h => h) hs
    exact hp.chain'
  · intro n
    rw [calculateDistribution]
    simp only []
    rw [zip_map_fst_snd]
    exact filter_insertionSort_count n (distributionCounts patients attributeId)

theorem sum_set_succ : ∀ (l : List ℕ) (i : ℕ), i < l.length →
    (l.set i (l.getD i 0 + 1)).sum = l.sum + 1 := by
  intro l
  induction l with
  | nil => intro i hi; exact absurd hi (Nat.not_lt_zero i)
  | cons a t ih =>
    intro i hi
    match i with
    | 0 =>
      simp only [List.set, List.getD_cons_zero, List.sum_cons]
      omega
    | k + 1 =>
      have hk : k < t.length := Nat.lt_of_succ_lt_succ hi
      simp only [List.set, List.getD_cons_succ, List.sum_cons, ih k hk]
      omega

theorem histStep_no_age (counts : List ℕ) (p : Patient)
    (h : ageOf p = none) : histStep counts p = counts := by
  rw [histStep, h]

theorem histStep_no_bin (counts : List ℕ) (p : Patient) (age : ℚ)
    (h : ageOf p = some age) (hb : findBinIdx age = none) :
    histStep counts p = counts := by
  rw [histStep, h]
  show (match findBinIdx age with
    | some i => counts.set i (counts.getD i 0 + 1)
    | none => counts) = counts
  rw [hb]

theorem histStep_bin (counts : List ℕ) (p : Patient) (age : ℚ) (i : ℕ)
    (h : ageOf p = some age) (hb : findBinIdx age = some i) :
    histStep counts p = counts.set i (counts.getD i 0 + 1) := by
  rw [histStep, h]
  show (match findBinIdx age with
    | some i => counts.set i (counts.getD i 0 + 1)
    | none => counts) = counts.set i (counts.getD i 0 + 1)
  rw [hb]

theorem foldl_histStep_length (init : List ℕ) :
    ∀ patients : List Patient,
      (patients.foldl histStep init).length = init.length := by
  intro patients
  induction patients using List.reverseRecOn with
  | nil => rfl
  | append_singleton ps p ih =>
    rw [List.foldl_append, List.foldl_cons, List.foldl_nil]
    cases hage : ageOf p with
    | none => rw [histStep_no_age _ _ hage]; exact ih
    | some age =>
      cases hbin : findBinIdx age with
      | none => rw [histStep_no_bin _ _ _ hage hbin]; exact ih
      | some i =>
        rw [histStep_bin _ _ _ _ hage hbin, List.length_set]
        exact ih

/-- An age falls into some bin exactly when it lies in `[0, 200)`: the
seven half-open bins partition that interval and nothing else. -/
theorem findBinIdx_isSome (age : ℚ) :
    (findBinIdx age).isSome = true ↔ 0 ≤ age ∧ age < 200 := by
  rw [findBinIdx, List.findIdx?_isSome, ageBins]
  simp only [List.any_cons, List.any_nil, Bool.or_eq_true, Bool.and_eq_true,
    decide_eq_true_eq, Bool.or_false]
  constructor
  · rintro (⟨h1, h2⟩ | ⟨h1, h2⟩ | ⟨h1, h2⟩ | ⟨h1, h2⟩ | ⟨h1, h2⟩ | ⟨h1, h2⟩ |
      ⟨h1, h2⟩) <;> constructor <;> linarith
  · rintro ⟨h0, h200⟩
    by_cases c1 : age < 30
    · exact Or.inl ⟨h0, c1⟩
    by_cases c2 : age < 40
    · exact Or.inr (Or.inl ⟨by linarith, c2⟩)
    by_cases c3 : age < 50
    · exact Or.inr (Or.inr (Or.inl ⟨by linarith, c3⟩))
    by_cases c4 : age < 60
    · exact Or.inr (Or.inr (Or.inr (Or.inl ⟨by linarith, c4⟩)))
    by_cases c5 : age < 70
    · exact Or.inr (Or.inr (Or.inr (Or.inr (Or.inl ⟨by linarith, c5⟩))))
    by_cases c6 : age < 80
    · exact Or.inr (Or.inr (Or.inr (Or.inr (Or.inr (Or.inl
        ⟨by linarith, c6⟩)))))
    · exact Or.inr (Or.inr (Or.inr (Or.inr (Or.inr (Or.inr
        ⟨by linarith, h200⟩)))))

/-- C4 (amended).  The bin labels are always the fixed seven in order, and
the bin counts sum to the number of patients whose `AGE` coerces to a
numeric value lying in `[0, 200)` — a numeric age outside that range
(e.g. `250`) matches no bin and is silently dropped, which is what forces
the amendment. -/
theorem ageHistogram_c4 (patients : List Patient) :
    (calculateAgeHistogram patients).labels =
      ["<30", "30-39", "40-49", "50-59", "60-69", "70-79", "80+"] ∧
    (calculateAgeHistogram patients).values.sum =
      (patients.filter (fun p =>
        match ageOf p with
        | some age => decide (0 ≤ age ∧ age < 200)
        | none => false)).length := by
  constructor
  · rfl
  · show (patients.foldl histStep (ageBins.map (fun _ => 0))).sum = _
    induction patients using List.reverseRecOn with
    | nil => rfl
    | append_singleton ps p ih =>
      rw [List.foldl_append, List.foldl_cons, List.foldl_nil,
        List.filter_append, List.length_append]
      cases hage : ageOf p with
      | none =>
        have hfil : List.filter (fun p =>
            match ageOf p with
            | some age => decide (0 ≤ age ∧ age < 200)
            | none => false) [p] = [] := by
          simp [List.filter, hage]
        rw [histStep_no_age _ _ hage, hfil, ih]
        simp
      | some age =>
        cases hbin : findBinIdx age with
        | some i =>
          have hrange : 0 ≤ age ∧ age < 200 := by
            rw [← findBinIdx_isSome age, hbin]
            rfl
          have hfil : List.filter (fun p =>
              match ageOf p with
              | some age => decide (0 ≤ age ∧ age < 200)
              | none => false) [p] = [p] := by
            simp [List.filter, hage, hrange]
          have hi : i < (ps.foldl histStep (ageBins.map (fun _ => 0))).length := by
            rw [foldl_histStep_length]
            have := List.findIdx?_eq_some_iff_getElem.mp hbin
            obtain ⟨hlen, _⟩ := this
            simpa using hlen
          rw [histStep_bin _ _ _ _ hage hbin, hfil, sum_set_succ _ i hi, ih]
          simp
        | none =>
          have hrange : ¬ (0 ≤ age ∧ age < 200) := by
            rw [← findBinIdx_isSome age, hbin]
            simp
          have hfil : List.filter (fun p =>
              match ageOf p with
              | some age => decide (0 ≤ age ∧ age < 200)
              | none => false) [p] = [] := by
            simp [List.filter, hage, hrange]
          rw [histStep_no_bin _ _ _ hage hbin, hfil, ih]
          simp

/-- C4 counterexample: the patient with `AGE = "250"` coerces to the
number `250`, yet lands in no bin (every bin requires `age < 200`), so
the counts sum to `0` while the number of numeric-age patients is `1` —
refuting the claim that the counts always sum to the number of patients
with a numeric age. -/
theorem ageHistogram_c4_counterexample :
    (calculateAgeHistogram c4Example).values.sum ≠
      (c4Example.filter (fun p => (ageOf p).isSome)).length := by
  have hage : ageOf [("AGE", "250")] = some ((250 : ℕ) : ℚ) := rfl
  have hbin : findBinIdx ((250 : ℕ) : ℚ) = none := by
    rw [findBinIdx, ageBins]
    have h250 : ((250 : ℕ) : ℚ) = (250 : ℚ) := by norm_num
    rw [h250]
    simp only [List.findIdx?_cons, List.findIdx?_nil]
    rw [decide_eq_false (by norm_num : ¬ ((250:ℚ) < 30)),
      decide_eq_false (by norm_num : ¬ ((250:ℚ) < 40)),
      decide_eq_false (by norm_num : ¬ ((250:ℚ) < 50)),
      decide_eq_false (by norm_num : ¬ ((250:ℚ) < 60)),
      decide_eq_false (by norm_num : ¬ ((250:ℚ) < 70)),
      decide_eq_false (by norm_num : ¬ ((250:ℚ) < 80)),
      decide_eq_false (by norm_num : ¬ ((250:ℚ) < 200))]
    simp [Bool.and_false]
  intro h
  have hsum : (calculateAgeHistogram c4Example).values.sum = 0 := by
    show ((c4Example.foldl histStep (ageBins.map (fun _ => 0)))).sum = 0
    have hfold : c4Example.foldl histStep (ageBins.map (fun _ => 0)) =
        histStep (ageBins.map (fun _ => 0)) [("AGE", "250")] := rfl
    rw [hfold, histStep_no_bin _ _ _ hage hbin]
    rfl
  have hpred : (ageOf [("AGE", "250")]).isSome = true := by rw [hage]; rfl
  have hlen : (c4Example.filter (fun p => (ageOf p).isSome)).length = 1 := by
    simp [c4Example, List.filter, hpred]
  rw [hsum, hlen] at h
  exact absurd h (by decide)

/-- C6 counterexample: the age histogram on empty input does not return
empty labels — it returns the seven fixed bin labels (cf. C4's fixed-order
guarantee), refuting the claim's "empty labels/values for every
aggregation function". -/
theorem emptyInput_c6_counterexample :
    (calculateAgeHistogram []).labels ≠ [] := by decide

/-- C6 (amended).  On empty input, `calculateDistribution`,
`extractSurvivalData` and `calculateKaplanMeier` return empty
labels/values (in particular no leading `(0, 100)` point), and the median
is the "Not reached" sentinel; `calculateAgeHistogram` instead returns
the seven fixed bin labels with all-zero counts. -/
theorem emptyInput_c6 :
    (∀ attributeId : String,
      calculateDistribution [] attributeId = ⟨[], []⟩) ∧
    calculateAgeHistogram [] =
      ⟨["<30", "30-39", "40-49", "50-59", "60-69", "70-79", "80+"],
       [0, 0, 0, 0, 0, 0, 0]⟩ ∧
    extractSurvivalData [] = [] ∧
    calculateKaplanMeier [] = ⟨[], []⟩ ∧
    medianSurvival (calculateKaplanMeier []) = "Not reached" :=
  ⟨fun _ => rfl, rfl, rfl, rfl, rfl⟩

/-- C5 counterexample: with the study request failing and the attribute
request succeeding, `fetchStudyData` leaves the error state `null` (it
does not report failure), returns a bundle rather than `null`, and keeps
the succeeded attribute list — a partial result, refuting the claim. -/
theorem fetchStudyData_c5_counterexample :
    (fetchStudyData (Except.error ("network failure"))
      (Except.ok [c5Attr]) (Except.ok []) (Except.ok [])
      (Except.ok []) (Except.ok [])).1 = none ∧
    (fetchStudyData (Except.error ("network failure"))
      (Except.ok [c5Attr]) (Except.ok []) (Except.ok [])
      (Except.ok []) (Except.ok [])).2 =
      some ⟨none, [c5Attr], [], [], [], []⟩ :=
  ⟨rfl, rfl⟩

/-- C5 (amended).  Each of the six per-study fetchers catches its own
failure and falls back to `null`/`[]`, so the fan-in `Promise.all` never
rejects on a fetch failure: `fetchStudyData` always leaves the error
state `null` and returns the bundle assembled from the individual
outcomes, yielding a partial result (null study, empty collections) when
some fetches fail rather than discarding the ones that succeeded. -/
theorem fetchStudyData_c5 (rStudy : Except String Study)
    (rAttrs : Except String (List ClinicalAttribute))
    (rPatientData rSampleData : Except String (List ClinicalDataItem))
    (rProfiles : Except String (List MolecularProfile))
    (rLists : Except String (List SampleList)) :
    (fetchStudyData rStudy rAttrs rPatientData rSampleData rProfiles
      rLists).1 = none ∧
    (fetchStudyData rStudy rAttrs rPatientData rSampleData rProfiles
      rLists).2 =
      some ⟨fetchStudy rStudy, fetchClinicalAttributes rAttrs,
        transformToPatients (fetchPatientClinicalData rPatientData),
        fetchSampleClinicalData rSampleData,
        fetchMolecularProfiles rProfiles, fetchSampleLists rLists⟩ ∧
    (∀ e : String, fetchStudy (Except.error e) = none) ∧
    (∀ e : String, fetchClinicalAttributes (Except.error e) = []) ∧
    (∀ e : String, fetchPatientClinicalData (Except.error e) = []) ∧
    (∀ e : String, fetchSampleClinicalData (Except.error e) = []) ∧
    (∀ e : String, fetchMolecularProfiles (Except.error e) = []) ∧
    (∀ e : String, fetchSampleLists (Except.error e) = []) :=
  ⟨rfl, rfl, fun _ => rfl, fun _ => rfl, fun _ => rfl, fun _ => rfl,
   fun _ => rfl, fun _ => rfl⟩

/-- The code comparator agrees with the spec's worded precedence. -/
theorem studyLe_iff (a b : Study) : studyLe a b ↔ studyPrecedes a b := by
  rw [studyLe, cmpStudies, studyPrecedes]
  cases hpa : isPanCanId a.studyId <;> cases hpb : isPanCanId b.studyId <;>
    cases hta : isTcgaId a.studyId <;> cases htb : isTcgaId b.studyId <;>
    simp

/-- C8.  On the worked example the non-public `z` is removed and the
PanCancer-Atlas study precedes the TCGA study despite its smaller sample
count; in general the output contains exactly the public studies
(a permutation of the public filter), and consecutive-pairwise it is
ordered by: pan_can_atlas first, then tcga, then sample count
descending. -/
theorem filterAndSortStudies_c8 :
    ((filterAndSortStudies c8Example).map (fun s => s.studyId) =
      ["y_pan_can_atlas_tcga", "x_tcga"]) ∧
    ∀ studies : List Study,
      (filterAndSortStudies studies).all (fun s => s.publicStudy) = true ∧
      (filterAndSortStudies studies).Perm
        (studies.filter (fun s => s.publicStudy)) ∧
      List.Pairwise studyPrecedes (filterAndSortStudies studies) := by
  constructor
  · decide
  · intro studies
    refine ⟨?_, List.perm_insertionSort studyLe _, ?_⟩
    · rw [List.all_eq_true]
      intro s hs
      rw [filterAndSortStudies, List.mem_insertionSort] at hs
      exact List.of_mem_filter hs
    · have hs := List.sorted_insertionSort studyLe
        (studies.filter (fun s => s.publicStudy))
      exact hs.imp (fun hab => (studyLe_iff _ _).mp hab)

/-- C9.  The mutation rate is unique mutated-sample count / study sample
count × 100: zero sample count yields rate 0 (no division), and the
worked example — 12 records touching 10 distinct samples in a study of
200 — yields exactly 5. -/
theorem mutationRate_c9 :
    (∀ (muts : List MutationRecord) (g : Gene),
      (summarizeMutations muts g 0).mutationRate = 0) ∧
    c9Muts.length = 12 ∧
    (c9Muts.map (fun m => m.sampleId)).dedup.length = 10 ∧
    (summarizeMutations c9Muts c9Gene 200).mutationRate = 5 := by
  refine ⟨fun muts g => rfl, by decide, by decide, ?_⟩
  show (if (200 : ℕ) = 0 then (0 : ℚ)
    else ((c9Muts.map (fun m => m.sampleId)).dedup.length : ℚ) /
      ((200 : ℕ) : ℚ) * 100) = 5
  rw [if_neg (by decide)]
  have hd : (c9Muts.map (fun m => m.sampleId)).dedup.length = 10 := by decide
  rw [hd]
  norm_num

/-- C7 witness: on the worked example the first value `≤ 50` is the third
point `(15, 0)`, so the reported median is `15`. -/
theorem medianSurvival_c7_witness :
    medianSurvival (calculateKaplanMeier kmExample) = "15" := by
  have h := (medianSurvival_c7 kmExample).2.2 2 ?_ ?_ ?_
  · rw [h, km_example_eval]
    rfl
  · rw [km_example_eval]
    norm_num
  · rw [km_example_eval]
    show (0 : ℚ) ≤ 50
    norm_num
  · intro j hji
    rw [km_example_eval]
    match j, hji with
    | 0, _ => show (50:ℚ) < 100; norm_num
    | 1, _ => show (50:ℚ) < 200/3; norm_num

end CBio
